import Mathlib

/-!
Market Mirror — verification of the aggregation/alerting core.

Shallow embedding of the aggregation, alerting, caching and synthetic-data
core of the Market Mirror dashboard (`src/App.tsx` and
`src/services/marketDataService.ts`), together with theorems settling the
specification's claims about it.

Modelling conventions:
* JavaScript `number` values are modelled as `ℚ` (the code only performs
  field arithmetic and comparisons on them); `Math.floor` is `Rat.floor`.
* Wall-clock instants (`Date.now()`, millisecond ticks) are `Nat`
  parameters threaded explicitly; calendar dates (`date.setDate`,
  ISO `YYYY-MM-DD` strings) are abstracted to integer day indices.
* `Math.random()` draws are modelled as an explicit stream `rng : Nat → ℚ`
  consumed at successive indices in program order; record producers that
  loop over symbols give each symbol its own independent stream
  `rng : String → Nat → ℚ`.
* String renderings of numbers done purely for display
  (`Number.toFixed`, `toLocaleTimeString`, ISO timestamps) are abstracted
  by total functions; no claim depends on their exact text.
* React state updates (`setAlerts`) become explicit state passing: the
  alert detector is a function from the previous feed to the new feed,
  exactly as the spec's §4.5 describes it.
-/

/-! ## Data model (`App.tsx` interfaces, `marketDataService.ts` interfaces) -/

/-- Model of the `type` field of an `Alert` in `App.tsx`:
`'warning' | 'info' | 'success' | 'error'`. -/
inductive AlertType where
  | warning
  | info
  | success
  | error
deriving DecidableEq, Repr

/-- Model of the `trendDirection` field of an `AIInsight` in `App.tsx`:
`'bullish' | 'bearish' | 'neutral'`. -/
inductive Trend where
  | bullish
  | bearish
  | neutral
deriving DecidableEq, Repr

/-- One point of the `history` array of `RealTimeMarketData`:
`{ date: string; price: number; volume: number }`.  The ISO date string is
abstracted to an integer day index. -/
structure HistPoint where
  date : Int
  price : ℚ
  volume : ℚ
deriving DecidableEq, Repr

/-- Model of the `RealTimeMarketData` interface of `marketDataService.ts` (the
`MarketRecord` of the spec).  `timestamp` (an ISO rendering of the
creation instant) is abstracted to the millisecond clock value. -/
structure MarketRecord where
  symbol : String
  name : String
  price : ℚ
  change : ℚ
  changePercent : ℚ
  volume : ℚ
  high24h : ℚ
  low24h : ℚ
  marketCap : Option ℚ := none
  timestamp : Nat := 0
  history : List HistPoint := []
deriving DecidableEq, Repr

instance : Inhabited MarketRecord :=
  ⟨{ symbol := "", name := "", price := 0, change := 0, changePercent := 0,
     volume := 0, high24h := 0, low24h := 0 }⟩

/-- Model of the `Alert` interface of `App.tsx`.  The display `timestamp`
(`toLocaleTimeString()`) is abstracted to the clock value at creation. -/
structure Alert where
  id : String
  message : String
  type : AlertType
  timestamp : Nat
deriving DecidableEq, Repr

/-- Model of the `AIInsight` interface of `App.tsx`. -/
structure AIInsight where
  summary : String
  recommendations : List String
  volatilityAnalysis : String
  trendDirection : Trend
deriving DecidableEq, Repr

/-- Abstraction of `Number.prototype.toFixed(d)`: the value scaled by
`10^d` and rounded, rendered as an integer string.  Decimal-point
placement and binary-float artifacts are abstracted away; no claim
depends on this text. -/
def ratToFixed (d : Nat) (q : ℚ) : String :=
  toString (Rat.floor (q * 10 ^ d + 1 / 2))

/-! ## Insight aggregator (`generateAIInsights`, `App.tsx` lines 31–53) -/

/-- Translation of `const avgChange = data.reduce((sum, item) => sum + item.changePercent, 0) / data.length;`

For an empty batch the JavaScript source divides by zero and produces
`NaN`; in `ℚ` the same expression yields `0/0 = 0`.  Either way every
comparison `avgChange > c` / `avgChange < c` evaluates to false on the
empty batch, which is what the claims about that case observe. -/
def avgChange (data : List MarketRecord) : ℚ :=
  data.foldl (fun sum item => sum + item.changePercent) 0 / (data.length : ℚ)

/-- Translation of `const volatility = data.reduce((sum, item) => sum + Math.abs(item.changePercent), 0) / data.length;`. -/
def volatility (data : List MarketRecord) : ℚ :=
  data.foldl (fun sum item => sum + |item.changePercent|) 0 / (data.length : ℚ)

/-- Translation of `generateAIInsights` from `App.tsx`, lines 31–53, translated clause by
clause.  It is a total function: the source never rejects, whatever the
batch. -/
def generateAIInsights (data : List MarketRecord) : AIInsight :=
  let avg := avgChange data
  let vol := volatility data
  let trendDirection : Trend :=
    if avg > 2 then .bullish else if avg < -2 then .bearish else .neutral
  let summary :=
    "Real-time analysis of " ++ toString data.length ++ " assets. Average change: " ++
      ratToFixed 2 avg ++ "%. " ++
      (if trendDirection = .bullish then "Strong upward momentum observed." else
       if trendDirection = .bearish then "Downward pressure detected." else
       "Sideways movement with mixed signals.")
  let recommendations :=
    [if avg > 5 then "Consider taking profits on strong performers" else "Hold current positions",
     if vol > 10 then "High volatility detected - use caution" else "Stable conditions for entry",
     if trendDirection = .bullish then "Look for dip-buying opportunities" else "Consider defensive positioning"]
  { summary := summary
    recommendations := recommendations
    volatilityAnalysis :=
      "Current volatility: " ++ ratToFixed 1 vol ++ "% - " ++
        (if vol > 15 then "High" else if vol > 8 then "Moderate" else "Low")
    trendDirection := trendDirection }

/-! ## Alert detector (`checkAlerts`, `App.tsx` lines 56–73) -/

/-- Translation of the alert id template literal (symbol, dash, clock value). -/
def mkId (symbol : String) (now : Nat) : String :=
  symbol ++ "-" ++ toString now

/-- Translation of the alert object pushed by `checkAlerts` for one exceeding record
(`App.tsx` lines 61–66).  All alerts of one invocation share the clock
value `now` (`Date.now()` within one synchronous loop). -/
def mkAlert (item : MarketRecord) (now : Nat) : Alert :=
  { id := mkId item.symbol now
    message := item.symbol ++ (if item.changePercent > 0 then " surged " else " dropped ") ++
      ratToFixed 1 |item.changePercent| ++ "% in the last period"
    type := if item.changePercent > 0 then .success else .warning
    timestamp := now }

/-- Translation of the `newAlerts` accumulation of `checkAlerts`: the `forEach` loop that pushes one alert per record whose absolute change exceeds the threshold. -/
def newAlertsFor (data : List MarketRecord) (alertThreshold : ℚ) (now : Nat) : List Alert :=
  data.foldl
    (fun newAlerts item =>
      if |item.changePercent| > alertThreshold then newAlerts ++ [mkAlert item now]
      else newAlerts)
    []

/-- Model of JavaScript `Array.prototype.slice(-n)`: the last `n` elements (all of
them when the array is shorter). -/
def sliceLast (n : Nat) (l : List Alert) : List Alert :=
  l.drop (l.length - n)

/-- Translation of `checkAlerts` from `App.tsx`, lines 56–73, with the React state update
`setAlerts(prev => [...prev, ...newAlerts].slice(-10))` made explicit:
the function maps the previous feed to the new feed.  When no alert
fires, `setAlerts` is not called and the feed is untouched. -/
def checkAlerts (prev : List Alert) (data : List MarketRecord) (alertThreshold : ℚ)
    (now : Nat) : List Alert :=
  let newAlerts := newAlertsFor data alertThreshold now
  if newAlerts.length > 0 then sliceLast 10 (prev ++ newAlerts) else prev

/-! ## Time-boxed cache (`MarketDataService`, `marketDataService.ts` lines 39–47) -/

/-- One entry of the private cache `Map` (a payload batch and its capture timestamp).
The `any` payload is always a `RealTimeMarketData[]` batch. -/
structure CacheEntry where
  data : List MarketRecord
  timestamp : Nat
deriving DecidableEq

/-- The cache `Map`, modelled by its lookup function. -/
def Cache : Type := String → Option CacheEntry

/-- Translation of `CACHE_DURATION = 60000` (the one-minute TTL). -/
def CACHE_DURATION : Int := 60000

/-- Translation of the cache write (`set` of the key to the batch and the current clock). -/
def cacheSet (cache : Cache) (key : String) (entry : CacheEntry) : Cache :=
  fun k => if k = key then some entry else cache k

/-- Translation of `isValidCache` from `marketDataService.ts`, lines 43–47.  The
subtraction `Date.now() - cached.timestamp` is signed in JavaScript, so
it is taken in `ℤ`. -/
def isValidCache (cache : Cache) (key : String) (now : Nat) : Bool :=
  match cache key with
  | none => false
  | some cached => decide ((now : Int) - (cached.timestamp : Int) < CACHE_DURATION)

/-- The guarded read pattern used by `fetchCryptoData` / `fetchStockData`:
`if (this.isValidCache(cacheKey)) { return this.cache.get(cacheKey)!.data; }`,
expressed as the spec's `get(key) -> batch option`. -/
def cacheGet (cache : Cache) (key : String) (now : Nat) : Option (List MarketRecord) :=
  if isValidCache cache key now then (cache key).map (·.data) else none

/-! ## Fallback / synthetic data generators (`marketDataService.ts`) -/

/-- The static base table of `getFallbackStockData` / `getFallbackCryptoData`
(`currentPrices`): price, display name, market capitalization. -/
structure BaseQuote where
  price : ℚ
  name : String
  marketCap : ℚ
deriving DecidableEq, Repr

/-- Translation of `currentPrices` of `getFallbackStockData` (lines 197-205) together with
its default entry (price 100, the symbol followed by a company suffix, market cap 5e10). -/
def stockBase (symbol : String) : BaseQuote :=
  match symbol with
  | "AAPL" => ⟨21325/100, "Apple Inc.", 3200000000000⟩
  | "GOOGL" => ⟨17580/100, "Alphabet Inc.", 2100000000000⟩
  | "MSFT" => ⟨42515/100, "Microsoft Corporation", 3100000000000⟩
  | "TSLA" => ⟨24850/100, "Tesla Inc.", 780000000000⟩
  | "AMZN" => ⟨18675/100, "Amazon.com Inc.", 1900000000000⟩
  | "NVDA" => ⟨87530/100, "NVIDIA Corporation", 2200000000000⟩
  | "META" => ⟨48520/100, "Meta Platforms Inc.", 1200000000000⟩
  | _ => ⟨100, symbol ++ " Inc.", 50000000000⟩

/-- Translation of `currentPrices` of `getFallbackCryptoData` (lines 245-254) together with
its default entry (price 1, the symbol followed by a token suffix, market cap 1e9). -/
def cryptoBase (symbol : String) : BaseQuote :=
  match symbol with
  | "BTC" => ⟨67500, "Bitcoin", 1300000000000⟩
  | "ETH" => ⟨3850, "Ethereum", 460000000000⟩
  | "SOL" => ⟨195, "Solana", 85000000000⟩
  | "ADA" => ⟨62/100, "Cardano", 22000000000⟩
  | "DOT" => ⟨845/100, "Polkadot", 12000000000⟩
  | "LINK" => ⟨1875/100, "Chainlink", 11000000000⟩
  | "UNI" => ⟨1230/100, "Uniswap", 9000000000⟩
  | "AVAX" => ⟨4280/100, "Avalanche", 16000000000⟩
  | _ => ⟨1, symbol ++ " Token", 1000000000⟩

/-- The history loop shared by `getFallbackStockData` (lines 213–226) and
`getFallbackCryptoData` (lines 261–275):

```
for (let i = 29; i >= 0; i--) {
  const date = ...today - i...
  const dailyChange = (Math.random() - 0.5) * dailyRange;
  currentPrice *= (1 + dailyChange);
  history.push({ date, price: currentPrice,
                 volume: Math.floor(Math.random() * volMul) + volAdd });
}
```

`count` is the remaining iteration count (the loop runs it from 30 down;
the pattern variable `n` is the current `i`), `currentPrice` the running
price, and `idx` the position in the per-symbol draw stream (`idx` for
`dailyChange`, `idx + 1` for `volume`). -/
def fallbackHistory (rng : Nat → ℚ) (today : Int) (dailyRange volMul volAdd : ℚ) :
    Nat → ℚ → Nat → List HistPoint
  | 0, _, _ => []
  | n + 1, currentPrice, idx =>
    let dailyChange := (rng idx - 1 / 2) * dailyRange
    let price := currentPrice * (1 + dailyChange)
    { date := today - (n : Int), price := price,
      volume := (Rat.floor (rng (idx + 1) * volMul) : ℚ) + volAdd } ::
      fallbackHistory rng today dailyRange volMul volAdd n price (idx + 2)

/-- Translation of `getFallbackStockData` from `marketDataService.ts`, lines 196–242.
Each symbol consumes its own draw stream `rng symbol`: draw 0 is
`randomChange`, draws 1–60 feed the history loop, draw 61 the volume. -/
def getFallbackStockData (symbols : List String) (rng : String → Nat → ℚ)
    (today : Int) (now : Nat) : List MarketRecord :=
  symbols.map fun symbol =>
    let baseData := stockBase symbol
    let randomChange := (rng symbol 0 - 1 / 2) * (6 / 100)
    let change := baseData.price * randomChange
    let history := fallbackHistory (rng symbol) today (4 / 100) 100000000 10000000 30 baseData.price 1
    { symbol := symbol
      name := baseData.name
      price := baseData.price + change
      change := change
      changePercent := change / baseData.price * 100
      volume := (Rat.floor (rng symbol 61 * 100000000) : ℚ) + 20000000
      high24h := baseData.price * (103 / 100)
      low24h := baseData.price * (97 / 100)
      marketCap := some baseData.marketCap
      timestamp := now
      history := history }

/-- Translation of `getFallbackCryptoData` from `marketDataService.ts`, lines 244–291
(±7.5% current perturbation, ±4% daily history steps). -/
def getFallbackCryptoData (symbols : List String) (rng : String → Nat → ℚ)
    (today : Int) (now : Nat) : List MarketRecord :=
  symbols.map fun symbol =>
    let baseData := cryptoBase symbol
    let randomChange := (rng symbol 0 - 1 / 2) * (15 / 100)
    let change := baseData.price * randomChange
    let history := fallbackHistory (rng symbol) today (8 / 100) 2000000000 100000000 30 baseData.price 1
    { symbol := symbol
      name := baseData.name
      price := baseData.price + change
      change := change
      changePercent := change / baseData.price * 100
      volume := (Rat.floor (rng symbol 61 * 2000000000) : ℚ) + 500000000
      high24h := baseData.price * (108 / 100)
      low24h := baseData.price * (92 / 100)
      marketCap := some baseData.marketCap
      timestamp := now
      history := history }

/-- The static product table of `fetchEcommerceData` (lines 295–304):
price, display name, category. -/
structure ProductBase where
  price : ℚ
  name : String
  category : String
deriving DecidableEq, Repr

/-- Translation of `currentPrices` of `fetchEcommerceData` together with its default
entry (price 99, a generic product name, category General). -/
def productBase (productId : String) : ProductBase :=
  match productId with
  | "iPhone15" => ⟨999, "iPhone 15 Pro", "Electronics"⟩
  | "AirPods" => ⟨249, "AirPods Pro (2nd Gen)", "Audio"⟩
  | "MacBook" => ⟨1299, "MacBook Air M3", "Computers"⟩
  | "iPad" => ⟨799, "iPad Pro 11\"", "Tablets"⟩
  | "Watch" => ⟨799, "Apple Watch Ultra 2", "Wearables"⟩
  | "PS5" => ⟨499, "PlayStation 5", "Gaming"⟩
  | "Switch" => ⟨299, "Nintendo Switch OLED", "Gaming"⟩
  | "XBox" => ⟨499, "Xbox Series X", "Gaming"⟩
  | _ => ⟨99, "Product " ++ productId, "General"⟩

/-- The e-commerce history loop of `fetchEcommerceData` (lines 312–331):

```
for (let i = 29; i >= 0; i--) {
  let dailyChange = 0;
  if (Math.random() < 0.05) {
    dailyChange = Math.random() < 0.7 ? -0.1 : 0.05;
  }
  currentPrice *= (1 + dailyChange);
  history.push({ date, price: Math.max(currentPrice, baseData.price * 0.7),
                 volume: Math.floor(Math.random() * 1000) + 50 });
}
```

The sale-direction draw is consumed only when the 5%-sale draw fires, so
the stream index is threaded conditionally. -/
def ecommerceHistory (rng : Nat → ℚ) (today : Int) (basePrice : ℚ) :
    Nat → ℚ → Nat → List HistPoint
  | 0, _, _ => []
  | n + 1, currentPrice, idx =>
    let hasSale := rng idx < 5 / 100
    let dailyChange : ℚ :=
      if hasSale then (if rng (idx + 1) < 7 / 10 then -(1 / 10) else 5 / 100) else 0
    let idxV := if hasSale then idx + 2 else idx + 1
    let price := currentPrice * (1 + dailyChange)
    { date := today - (n : Int), price := max price (basePrice * (7 / 10)),
      volume := (Rat.floor (rng idxV * 1000) : ℚ) + 50 } ::
      ecommerceHistory rng today basePrice n price (idxV + 1)

/-- Translation of `fetchEcommerceData` from `marketDataService.ts`, lines 293–346.  This
path has no external source: records are produced directly from the
product table.  Draw 0 of each product's stream is `randomChange`,
draws from 1 on feed the history loop, and the final draw (index 62,
reserving the worst-case history consumption) the sales volume; the
claims hold for every stream, so the exact index of the trailing volume
draw is immaterial. -/
def fetchEcommerceData (productIds : List String) (rng : String → Nat → ℚ)
    (today : Int) (now : Nat) : List MarketRecord :=
  productIds.map fun productId =>
    let baseData := productBase productId
    let randomChange := (rng productId 0 - 1 / 2) * (10 / 100)
    let change := baseData.price * randomChange
    let history := ecommerceHistory (rng productId) today baseData.price 30 baseData.price 1
    { symbol := productId
      name := baseData.name
      price := baseData.price + change
      change := change
      changePercent := change / baseData.price * 100
      volume := (Rat.floor (rng productId 62 * 1000) : ℚ) + 100
      high24h := baseData.price * (102 / 100)
      low24h := baseData.price * (95 / 100)
      marketCap := none
      timestamp := now
      history := history }

/-! ## Live fetch paths (`fetchCryptoData` / `fetchStockData` success branches) -/

/-- One element of the CoinGecko `/coins/markets` response
(the `CryptoData` interface of `marketDataService.ts`). -/
structure CryptoData where
  id : String
  symbol : String
  name : String
  current_price : ℚ
  price_change_24h : ℚ
  price_change_percentage_24h : ℚ
  market_cap : ℚ
  total_volume : ℚ
  high_24h : ℚ
  low_24h : ℚ
deriving DecidableEq, Repr

/-- The `idMap` lookup inside `fetchCryptoData` (lines 59–70), with the
`idMap[symbol] || symbol.toLowerCase()` fallback. -/
def coinIdOf (symbol : String) : String :=
  match symbol with
  | "BTC" => "bitcoin"
  | "ETH" => "ethereum"
  | "SOL" => "solana"
  | "ADA" => "cardano"
  | "DOT" => "polkadot"
  | "LINK" => "chainlink"
  | "UNI" => "uniswap"
  | "AVAX" => "avalanche-2"
  | _ => symbol.toLower

/-- The coin ids requested by `fetchCryptoData` for a symbol list
(the `coinIds` join, before URL assembly). -/
def cryptoRequestIds (symbols : List String) : List String :=
  symbols.map coinIdOf

/-- The success branch of `fetchCryptoData` (lines 81–98): the provider
response array `data` is mapped element-wise onto `RealTimeMarketData`.
The per-coin history endpoint is abstracted as a function of the coin
id.  Note the output is one record per *response* element, in response
order — the request URL asks CoinGecko for `order=market_cap_desc`. -/
def fetchCryptoDataLive (data : List CryptoData) (histories : String → List HistPoint)
    (now : Nat) : List MarketRecord :=
  data.map fun coin =>
    { symbol := coin.symbol.toUpper
      name := coin.name
      price := coin.current_price
      change := coin.price_change_24h
      changePercent := coin.price_change_percentage_24h
      volume := coin.total_volume
      high24h := coin.high_24h
      low24h := coin.low_24h
      marketCap := some coin.market_cap
      timestamp := now
      history := histories coin.id }

/-- Well-formedness of a CoinGecko response for a request: it returns
exactly the requested coins (as a multiset of ids) sorted by descending
market capitalization, as the query string `order=market_cap_desc`
demands. -/
def cryptoRespWellFormed (symbols : List String) (data : List CryptoData) : Prop :=
  (data.map (·.id)).Perm (cryptoRequestIds symbols) ∧
    data.Pairwise (fun a b => b.market_cap ≤ a.market_cap)

instance (symbols : List String) (data : List CryptoData) :
    Decidable (cryptoRespWellFormed symbols data) :=
  inferInstanceAs (Decidable (_ ∧ _))

/-- The fields of `data.chart.result[0]` consumed by `fetchStockData`
(lines 126–158): the `meta` block and the aligned `timestamp` /
`indicators.quote[0].close` / `.volume` arrays.  Array entries that can
be `null` are `Option`s. -/
structure StockChart where
  regularMarketPrice : ℚ
  previousClose : ℚ
  regularMarketVolume : Option ℚ
  regularMarketDayHigh : ℚ
  regularMarketDayLow : ℚ
  longName : Option String
  marketCap : Option ℚ
  timestamp : List Int
  close : List (Option ℚ)
  volume : List (Option ℚ)

/-- Model of JavaScript `x || d` on a number-or-null slot: `null`, `undefined` and
`0` are falsy. -/
def jsOr (v : Option ℚ) (d : ℚ) : ℚ :=
  match v with
  | none => d
  | some x => if x = 0 then d else x

/-- Model of JavaScript `x || d` on a string-or-undefined slot: `undefined` and the
empty string are falsy. -/
def jsOrStr (v : Option String) (d : String) : String :=
  match v with
  | none => d
  | some s => if s = "" then d else s

/-- Model of JavaScript array indexing `a[i]` with a possibly negative or
out-of-range index: out of range yields `undefined` (here `none`). -/
def jsIndex (l : List (Option ℚ)) (i : Int) : Option ℚ :=
  if i < 0 then none else (l.drop i.toNat).head?.join

/-- The per-symbol success branch of `fetchStockData` (lines 117–160).
The provider response for each symbol is a `StockChart`; `Promise.all`
keeps the order of `symbols.map`, so the output is one record per input
symbol, in input order.  The ISO date derived from a Unix-seconds
timestamp is abstracted to its day index. -/
def fetchStockDataLive (symbols : List String) (resp : String → StockChart)
    (now : Nat) : List MarketRecord :=
  symbols.map fun symbol =>
    let result := resp symbol
    let currentPrice := result.regularMarketPrice
    let change := currentPrice - result.previousClose
    let changePercent := change / result.previousClose * 100
    let timestamps := result.timestamp
    let ts30 := timestamps.drop (timestamps.length - 30)
    let history := ts30.enum.map fun p =>
      { date := p.2 / 86400
        price := jsOr (jsIndex result.close ((result.close.length : Int) - 30 + p.1)) currentPrice
        volume := jsOr (jsIndex result.volume ((result.volume.length : Int) - 30 + p.1)) 0 }
    { symbol := symbol
      name := jsOrStr result.longName symbol
      price := currentPrice
      change := change
      changePercent := changePercent
      volume := jsOr result.regularMarketVolume 0
      high24h := result.regularMarketDayHigh
      low24h := result.regularMarketDayLow
      marketCap := result.marketCap
      timestamp := now
      history := history }

/-! ## Helper lemmas -/

/-- The `forEach`/`push` accumulation of `checkAlerts` is the ordered
filter-and-map of the batch. -/
theorem newAlertsFor_eq (data : List MarketRecord) (threshold : ℚ) (now : Nat) :
    newAlertsFor data threshold now =
      (data.filter fun r => threshold < |r.changePercent|).map (fun r => mkAlert r now) := by
  suffices h : ∀ (l : List MarketRecord) (acc : List Alert),
      l.foldl
        (fun newAlerts item =>
          if |item.changePercent| > threshold then newAlerts ++ [mkAlert item now]
          else newAlerts) acc
        = acc ++ (l.filter fun r => threshold < |r.changePercent|).map (fun r => mkAlert r now) by
    simpa using h data []
  intro l
  induction l with
  | nil => intro acc; simp
  | cons r t ih =>
    intro acc
    by_cases h : threshold < |r.changePercent| <;>
      simp [h, ih, List.filter_cons]

/-- The trend classification line of `generateAIInsights`. -/
theorem trendDirection_def (data : List MarketRecord) :
    (generateAIInsights data).trendDirection =
      if avgChange data > 2 then .bullish
      else if avgChange data < -2 then .bearish
      else .neutral := rfl

/-! ## Claim theorems -/

/-- Claim C1 (code behaviour at the failing input): invoked with an empty
batch, `generateAIInsights` does *not* signal an error — it is total and
returns a degenerate insight whose trend is `neutral`.  (In the
JavaScript source the average is `0/0 = NaN`, every threshold comparison
on `NaN` is false, and the same `neutral` insight is returned.)  The
spec (§4.4, §7, §8) requires an explicit rejection here, which the code
does not perform. -/
theorem generateAIInsights_empty_degenerate :
    (generateAIInsights ([] : List MarketRecord)).trendDirection = Trend.neutral := by
  have h0 : avgChange ([] : List MarketRecord) = 0 := by
    simp [avgChange]
  rw [trendDirection_def, h0]
  norm_num

/-- Claim C3: for a non-empty batch the derived trend is `bullish` iff the
average change exceeds 2, `bearish` iff it is below -2, and `neutral`
exactly on the closed interval `[-2, 2]` — in particular at both
boundary values. -/
theorem trendDirection_thresholds (data : List MarketRecord) (_h : data ≠ []) :
    ((generateAIInsights data).trendDirection = Trend.bullish ↔ 2 < avgChange data) ∧
    ((generateAIInsights data).trendDirection = Trend.bearish ↔ avgChange data < -2) ∧
    ((generateAIInsights data).trendDirection = Trend.neutral ↔
      -2 ≤ avgChange data ∧ avgChange data ≤ 2) := by
  rw [trendDirection_def data]
  rcases lt_trichotomy (avgChange data) (-2) with hlt | heq | hgt
  · rw [if_neg (by linarith), if_pos hlt]
    refine ⟨⟨(fun hc => nomatch hc), fun hc => by linarith⟩,
            ⟨fun _ => hlt, fun _ => rfl⟩,
            ⟨(fun hc => nomatch hc), fun hc => by exact absurd hlt (by linarith [hc.1])⟩⟩
  · rw [if_neg (by rw [heq]; norm_num), if_neg (by rw [heq]; norm_num)]
    refine ⟨⟨(fun hc => nomatch hc), fun hc => by rw [heq] at hc; norm_num at hc⟩,
            ⟨(fun hc => nomatch hc), fun hc => by rw [heq] at hc; norm_num at hc⟩,
            ⟨fun _ => by rw [heq]; norm_num, fun _ => rfl⟩⟩
  · by_cases h2 : 2 < avgChange data
    · rw [if_pos h2]
      refine ⟨⟨fun _ => h2, fun _ => rfl⟩,
              ⟨(fun hc => nomatch hc), fun hc => by linarith⟩,
              ⟨(fun hc => nomatch hc), fun hc => by exact absurd h2 (by linarith [hc.2])⟩⟩
    · rw [if_neg h2, if_neg (by linarith)]
      refine ⟨⟨(fun hc => nomatch hc), fun hc => absurd hc h2⟩,
              ⟨(fun hc => nomatch hc), fun hc => by linarith⟩,
              ⟨fun _ => ⟨by linarith, by linarith⟩, fun _ => rfl⟩⟩

/-- A concrete record with a +9% move, used to instantiate theorems. -/
def recUp9 : MarketRecord :=
  { symbol := "SOL", name := "Solana", price := 195, change := 9, changePercent := 9,
    volume := 0, high24h := 0, low24h := 0 }

/-- Witness for `trendDirection_thresholds`: a one-record batch of +9%
classifies as `bullish`. -/
theorem trendDirection_thresholds_witness :
    (generateAIInsights [recUp9]).trendDirection = Trend.bullish :=
  (trendDirection_thresholds [recUp9] (by decide)).1.mpr (by norm_num [avgChange, recUp9])

/-- Claim C5: a cache read immediately after a write of the same key
returns exactly the stored batch; a read 61 seconds after the write
(60-second TTL) misses; and an entry is valid exactly when
`now - capturedAt < TTL`. -/
theorem cache_ttl_contract (cache : Cache) (key : String) (batch : List MarketRecord) (now : Nat) :
    cacheGet (cacheSet cache key ⟨batch, now⟩) key now = some batch ∧
    cacheGet (cacheSet cache key ⟨batch, now⟩) key (now + 61000) = none ∧
    (∀ e : CacheEntry, cache key = some e →
      (isValidCache cache key now = true ↔ (now : Int) - (e.timestamp : Int) < CACHE_DURATION)) := by
  have hk : cacheSet cache key ⟨batch, now⟩ key = some ⟨batch, now⟩ := by
    simp [cacheSet]
  refine ⟨?_, ?_, ?_⟩
  · simp [cacheGet, isValidCache, hk, CACHE_DURATION]
  · have hinvalid : isValidCache (cacheSet cache key ⟨batch, now⟩) key (now + 61000) = false := by
      simp only [isValidCache, hk, CACHE_DURATION]
      rw [decide_eq_false_iff_not, not_lt]
      push_cast
      omega
    simp [cacheGet, hinvalid]
  · intro e he
    simp [isValidCache, he]

/-- Witness for `cache_ttl_contract` at a concrete cache, key, batch and
clock, with the validity equivalence discharged on a stored entry. -/
theorem cache_ttl_contract_witness :
    cacheGet (cacheSet (fun _ => some ⟨[], 0⟩) "crypto_BTC" ⟨[recUp9], 5⟩) "crypto_BTC" 5 =
      some [recUp9] ∧
    cacheGet (cacheSet (fun _ => some ⟨[], 0⟩) "crypto_BTC" ⟨[recUp9], 5⟩) "crypto_BTC"
      (5 + 61000) = none ∧
    isValidCache (fun _ => some ⟨[], 0⟩) "crypto_BTC" 5 = true := by
  obtain ⟨h1, h2, h3⟩ := cache_ttl_contract (fun _ => some ⟨[], 0⟩) "crypto_BTC" [recUp9] 5
  exact ⟨h1, h2, (h3 ⟨[], 0⟩ rfl).mpr (by decide)⟩

/-- Claim C10: when no record's absolute change strictly exceeds the
threshold, the detector leaves the feed exactly unchanged — no
truncation happens even if the incoming feed holds more than 10
events. -/
theorem checkAlerts_frame (prev : List Alert) (data : List MarketRecord) (threshold : ℚ)
    (now : Nat) (h : ∀ r ∈ data, ¬ threshold < |r.changePercent|) :
    checkAlerts prev data threshold now = prev := by
  have hempty : newAlertsFor data threshold now = [] := by
    rw [newAlertsFor_eq, List.map_eq_nil_iff]
    exact List.filter_eq_nil_iff.mpr (by simpa using h)
  simp [checkAlerts, hempty]

/-- A concrete record at exactly +8.5% (`Rat.mk' 17 2` is the reduced
fraction 17/2 = 8.5; a plain `17/2` literal would not kernel-reduce). -/
def recUp85 : MarketRecord :=
  { symbol := "TSLA", name := "Tesla Inc.", price := 248, change := 21, changePercent := Rat.mk' 17 2,
    volume := 0, high24h := 0, low24h := 0 }

/-- A concrete record at exactly -8.5%. -/
def recDown85 : MarketRecord :=
  { symbol := "NVDA", name := "NVIDIA Corporation", price := 875, change := -74, changePercent := Rat.mk' (-17) 2,
    volume := 0, high24h := 0, low24h := 0 }

/-- A concrete record at exactly +1%, below any threshold ≥ 1. -/
def recUp1 : MarketRecord :=
  { symbol := "AAPL", name := "Apple Inc.", price := 100, change := 1, changePercent := 1,
    volume := 0, high24h := 0, low24h := 0 }

/-- A padding alert used to build concrete feeds. -/
def padAlert (k : Nat) : Alert :=
  { id := mkId "PAD" k, message := "", type := .info, timestamp := k }

/-- A concrete feed of 11 alerts (more than the cap). -/
def elevenFeed : List Alert := (List.range 11).map padAlert

/-- Witness for `checkAlerts_frame`: a +1% record against threshold 8
fires nothing, and an 11-element feed passes through unchanged. -/
theorem checkAlerts_frame_witness :
    checkAlerts elevenFeed [recUp1] 8 0 = elevenFeed := by
  refine checkAlerts_frame elevenFeed [recUp1] 8 0 ?_
  intro r hr
  rw [List.mem_singleton] at hr
  subst hr
  decide

/-- Claim C4: the alerts generated by one detector invocation are exactly
one per record whose absolute change strictly exceeds the threshold, in
batch order (the ordered filter-and-map); a record sitting exactly at
the threshold is not selected; and the severity is `success` for a
positive change and `warning` for a negative one. -/
theorem alert_detector_contract (data : List MarketRecord) (threshold : ℚ) (now : Nat) :
    newAlertsFor data threshold now =
      (data.filter fun r => threshold < |r.changePercent|).map (fun r => mkAlert r now) ∧
    (∀ r : MarketRecord, |r.changePercent| = threshold →
      r ∉ data.filter fun r => threshold < |r.changePercent|) ∧
    (∀ r : MarketRecord, 0 < r.changePercent → (mkAlert r now).type = AlertType.success) ∧
    (∀ r : MarketRecord, r.changePercent < 0 → (mkAlert r now).type = AlertType.warning) := by
  refine ⟨newAlertsFor_eq data threshold now, ?_, ?_, ?_⟩
  · intro r hr hmem
    rw [List.mem_filter] at hmem
    have hlt : threshold < |r.changePercent| := by simpa using hmem.2
    rw [hr] at hlt
    exact lt_irrefl _ hlt
  · intro r h0
    simp [mkAlert, h0]
  · intro r h0
    have : ¬ r.changePercent > 0 := by linarith
    simp [mkAlert, this]

/-- Witness for `alert_detector_contract`: with threshold 8, the record
at +8.5% yields exactly one `success` alert, the one at -8.5% a
`warning` one, and both together fire in batch order. -/
theorem alert_detector_contract_witness :
    newAlertsFor [recUp85, recDown85] 8 0 = [mkAlert recUp85 0, mkAlert recDown85 0] ∧
    (mkAlert recUp85 0).type = AlertType.success ∧
    (mkAlert recDown85 0).type = AlertType.warning := by
  obtain ⟨h1, _, h3, h4⟩ := alert_detector_contract [recUp85, recDown85] 8 0
  refine ⟨?_, h3 recUp85 (by decide), h4 recDown85 (by decide)⟩
  rw [h1]
  have hf : ([recUp85, recDown85].filter fun r => (8:ℚ) < |r.changePercent|) =
      [recUp85, recDown85] := by decide
  rw [hf]
  rfl

/-- Claim C2, counterexample to the claim as stated: on an incoming feed of
11 alerts and a batch that fires nothing, the detector returns the
11-element feed untouched, so the resulting feed length is *not* at most
10.  (Such an over-long feed never arises from the empty feed, which is
what the amended claim records.) -/
theorem checkAlerts_cap_counterexample :
    ¬ (checkAlerts elevenFeed [recUp1] 8 0).length ≤ 10 := by
  decide

/-- Claim C2, amended: starting from a feed of length at most 10 (which
covers every feed the application can build, since the feed starts empty
and only the detector writes it), the feed after one invocation has
length at most 10; and whenever at least one alert fires, the new feed
is exactly the appended feed truncated to its last 10 elements — the
oldest entries, including earlier alerts of the same batch, are dropped
first-in-first-out. -/
theorem checkAlerts_cap_fifo (prev : List Alert) (data : List MarketRecord) (threshold : ℚ)
    (now : Nat) (h : prev.length ≤ 10) :
    (checkAlerts prev data threshold now).length ≤ 10 ∧
    (newAlertsFor data threshold now ≠ [] →
      checkAlerts prev data threshold now =
        (prev ++ newAlertsFor data threshold now).drop
          ((prev ++ newAlertsFor data threshold now).length - 10)) := by
  unfold checkAlerts sliceLast
  by_cases hne : (newAlertsFor data threshold now).length > 0
  · rw [if_pos hne]
    constructor
    · rw [List.length_drop]
      omega
    · intro _
      rfl
  · rw [if_neg hne]
    refine ⟨h, fun hcon => absurd (List.length_pos.mpr hcon) hne⟩

/-- Witness for `checkAlerts_cap_fifo`: from an empty feed, a batch with
one +8.5% record against threshold 8 leaves a feed of length at most 10,
and the fired alert list is the appended-then-truncated feed. -/
theorem checkAlerts_cap_fifo_witness :
    (checkAlerts [] [recUp85] 8 0).length ≤ 10 ∧
    checkAlerts [] [recUp85] 8 0 =
      (([] : List Alert) ++ newAlertsFor [recUp85] 8 0).drop
        ((([] : List Alert) ++ newAlertsFor [recUp85] 8 0).length - 10) := by
  obtain ⟨h1, h2⟩ := checkAlerts_cap_fifo [] [recUp85] 8 0 (by decide)
  refine ⟨h1, h2 ?_⟩
  rw [newAlertsFor_eq]
  decide

/-! ## Mean bounds (claim C6) -/

/-- The `reduce` accumulation of `generateAIInsights` is the list sum of
the percent changes. -/
theorem foldl_changePercent_eq_sum (l : List MarketRecord) :
    ∀ a : ℚ, l.foldl (fun sum item => sum + item.changePercent) a =
      a + (l.map (·.changePercent)).sum := by
  induction l with
  | nil => intro a; simp
  | cons r t ih =>
    intro a
    simp only [List.foldl_cons, List.map_cons, List.sum_cons, ih]
    ring

/-- Every non-empty list of rationals has a least and a greatest
element. -/
theorem exists_min_max (l : List ℚ) (h : l ≠ []) :
    ∃ lo ∈ l, ∃ hi ∈ l, ∀ x ∈ l, lo ≤ x ∧ x ≤ hi := by
  induction l with
  | nil => exact absurd rfl h
  | cons a t ih =>
    cases t with
    | nil =>
      exact ⟨a, by simp, a, by simp, by simp⟩
    | cons b u =>
      obtain ⟨lo, hlo, hi, hhi, hb⟩ := ih (by simp)
      refine ⟨min a lo, ?_, max a hi, ?_, ?_⟩
      · rcases le_total a lo with hc | hc
        · rw [min_eq_left hc]; exact List.mem_cons_self _ _
        · rw [min_eq_right hc]; exact List.mem_cons_of_mem _ hlo
      · rcases le_total a hi with hc | hc
        · rw [max_eq_right hc]; exact List.mem_cons_of_mem _ hhi
        · rw [max_eq_left hc]; exact List.mem_cons_self _ _
      · intro x hx
        rcases List.mem_cons.mp hx with rfl | hx
        · exact ⟨min_le_left _ _, le_max_left _ _⟩
        · obtain ⟨h1, h2⟩ := hb x hx
          exact ⟨le_trans (min_le_right _ _) h1, le_trans h2 (le_max_right _ _)⟩

/-- A list sum is bounded by length times a lower and an upper bound of
its elements. -/
theorem sum_le_bounds (l : List ℚ) (lo hi : ℚ) (h : ∀ x ∈ l, lo ≤ x ∧ x ≤ hi) :
    (l.length : ℚ) * lo ≤ l.sum ∧ l.sum ≤ (l.length : ℚ) * hi := by
  induction l with
  | nil => simp
  | cons a t ih =>
    obtain ⟨h1, h2⟩ := h a (List.mem_cons_self _ _)
    obtain ⟨ih1, ih2⟩ := ih (fun x hx => h x (List.mem_cons_of_mem _ hx))
    constructor <;>
      · simp only [List.sum_cons, List.length_cons]
        push_cast
        nlinarith

/-- Claim C6: the aggregator's average is the arithmetic mean of the
records' percent changes, and it lies between the least and the
greatest percent change of the batch (`lo` and `hi` below are members
of the batch and bound every member, i.e. they are its minimum and
maximum). -/
theorem avgChange_mean_bounds (data : List MarketRecord) (h : data ≠ []) :
    avgChange data = (data.map (·.changePercent)).sum / (data.length : ℚ) ∧
    ∃ lo ∈ data.map (·.changePercent), ∃ hi ∈ data.map (·.changePercent),
      (∀ x ∈ data.map (·.changePercent), lo ≤ x ∧ x ≤ hi) ∧
      lo ≤ avgChange data ∧ avgChange data ≤ hi := by
  have hmean : avgChange data = (data.map (·.changePercent)).sum / (data.length : ℚ) := by
    rw [avgChange, foldl_changePercent_eq_sum data 0, zero_add]
  have hlen : (0 : ℚ) < (data.length : ℚ) := by
    exact_mod_cast List.length_pos.mpr h
  obtain ⟨lo, hlo, hi, hhi, hb⟩ :=
    exists_min_max (data.map (·.changePercent)) (by simpa using h)
  obtain ⟨hs1, hs2⟩ := sum_le_bounds _ lo hi hb
  rw [List.length_map] at hs1 hs2
  refine ⟨hmean, lo, hlo, hi, hhi, hb, ?_, ?_⟩
  · rw [hmean, le_div_iff₀ hlen]
    linarith
  · rw [hmean, div_le_iff₀ hlen]
    linarith

/-- Witness for `avgChange_mean_bounds` on the concrete two-record batch
`[+8.5%, -8.5%]`. -/
theorem avgChange_mean_bounds_witness :
    avgChange [recUp85, recDown85] =
      (([recUp85, recDown85] : List MarketRecord).map (·.changePercent)).sum /
        (([recUp85, recDown85] : List MarketRecord).length : ℚ) ∧
    ∃ lo ∈ ([recUp85, recDown85] : List MarketRecord).map (·.changePercent),
      ∃ hi ∈ ([recUp85, recDown85] : List MarketRecord).map (·.changePercent),
        (∀ x ∈ ([recUp85, recDown85] : List MarketRecord).map (·.changePercent),
          lo ≤ x ∧ x ≤ hi) ∧
        lo ≤ avgChange [recUp85, recDown85] ∧ avgChange [recUp85, recDown85] ≤ hi :=
  avgChange_mean_bounds [recUp85, recDown85] (by decide)

/-! ## Normalizer shape (claim C8) -/

/-- Claim C8, counterexample to the claim as stated: requesting the crypto
symbols `["ETH", "BTC"]` and receiving a well-formed CoinGecko response
(it contains exactly the requested coins and is sorted by descending
market capitalization, as the query string demands), the live crypto
path returns the records in *response* order `["BTC", "ETH"]`, not in
input order. -/
theorem normalizer_order_counterexample :
    cryptoRespWellFormed ["ETH", "BTC"]
      [⟨"bitcoin", "btc", "Bitcoin", 67500, 1200, 2, 1300000000000, 30000000000, 68000, 66000⟩,
       ⟨"ethereum", "eth", "Ethereum", 3850, -50, -1, 460000000000, 15000000000, 3900, 3800⟩] ∧
    (fetchCryptoDataLive
      [⟨"bitcoin", "btc", "Bitcoin", 67500, 1200, 2, 1300000000000, 30000000000, 68000, 66000⟩,
       ⟨"ethereum", "eth", "Ethereum", 3850, -50, -1, 460000000000, 15000000000, 3900, 3800⟩]
      (fun _ => []) 0).map (·.symbol) ≠ ["ETH", "BTC"] := by
  have hBTC : "btc".toUpper = "BTC" := by
    rw [String.toUpper, String.map_eq]
    decide
  have hETH : "eth".toUpper = "ETH" := by
    rw [String.toUpper, String.map_eq]
    decide
  refine ⟨⟨by decide, by decide⟩, ?_⟩
  simp only [fetchCryptoDataLive, List.map_cons, List.map_nil, hBTC, hETH]
  decide

/-- Claim C8, amended: the e-commerce path, both fallback paths and the
live stocks path produce exactly one record per input symbol, in input
order; the live crypto path instead produces one record per
provider-response entry, in response order (the request asks for
descending market capitalization), which can differ from the input
order. -/
theorem normalizer_order (symbols : List String) (rng : String → Nat → ℚ) (today : Int)
    (now : Nat) (resp : String → StockChart) (cdata : List CryptoData)
    (histories : String → List HistPoint) :
    (fetchEcommerceData symbols rng today now).map (·.symbol) = symbols ∧
    (getFallbackStockData symbols rng today now).map (·.symbol) = symbols ∧
    (getFallbackCryptoData symbols rng today now).map (·.symbol) = symbols ∧
    (fetchStockDataLive symbols resp now).map (·.symbol) = symbols ∧
    (fetchCryptoDataLive cdata histories now).map (·.symbol) =
      cdata.map (fun c => c.symbol.toUpper) := by
  refine ⟨?_, ?_, ?_, ?_, ?_⟩
  · rw [fetchEcommerceData, List.map_map]
    exact List.map_id' symbols
  · rw [getFallbackStockData, List.map_map]
    exact List.map_id' symbols
  · rw [getFallbackCryptoData, List.map_map]
    exact List.map_id' symbols
  · rw [fetchStockDataLive, List.map_map]
    exact List.map_id' symbols
  · rw [fetchCryptoDataLive, List.map_map]
    rfl

/-! ## Synthetic history shape (claim C7) -/

/-- Dates strictly increase by one calendar day: each point's date is
the previous point's date plus one. -/
def datesStepByOne (l : List HistPoint) : Prop :=
  ∀ (j : Nat) (h1 : j + 1 < l.length),
    (l.get ⟨j + 1, h1⟩).date = (l.get ⟨j, Nat.lt_of_succ_lt h1⟩).date + 1

/-- A list whose dates are `base + k` for `k = 0, …, m-1` has the
closed-form date at every index. -/
theorem date_closed_form (l : List HistPoint) (m : Nat) (base : Int)
    (hmap : l.map (·.date) = (List.range m).map (fun k : Nat => base + (k : Int)))
    (j : Nat) (hj : j < l.length) : (l.get ⟨j, hj⟩).date = base + (j : Int) := by
  have hlen : l.length = m := by
    have h := congrArg List.length hmap
    simpa using h
  have h1 : (l.map (·.date))[j]? = ((List.range m).map (fun k : Nat => base + (k : Int)))[j]? := by
    rw [hmap]
  rw [List.getElem?_map, List.getElem?_map, List.getElem?_range (by omega),
    List.getElem?_eq_getElem hj] at h1
  simp only [Option.map_some'] at h1
  rw [List.get_eq_getElem]
  exact Option.some_injective _ h1

/-- Closed-form dates give the step-by-one property. -/
theorem datesStepByOne_of_closed (l : List HistPoint) (m : Nat) (base : Int)
    (hmap : l.map (·.date) = (List.range m).map (fun k : Nat => base + (k : Int))) :
    datesStepByOne l := by
  intro j h1
  rw [date_closed_form l m base hmap (j + 1) h1,
    date_closed_form l m base hmap j (Nat.lt_of_succ_lt h1)]
  push_cast
  ring

/-- The fallback history loop produces exactly its iteration count of
points. -/
theorem fallbackHistory_length (rng : Nat → ℚ) (today : Int) (dR vM vA : ℚ) :
    ∀ (n : Nat) (c : ℚ) (i : Nat), (fallbackHistory rng today dR vM vA n c i).length = n := by
  intro n
  induction n with
  | zero => intro c i; rfl
  | succ m ih => intro c i; simp [fallbackHistory, ih]

/-- The fallback history loop's dates are `today - n + 1 + k` in order:
one calendar day apart, ending at `today`. -/
theorem fallbackHistory_dates (rng : Nat → ℚ) (today : Int) (dR vM vA : ℚ) :
    ∀ (n : Nat) (c : ℚ) (i : Nat),
      (fallbackHistory rng today dR vM vA n c i).map (·.date) =
        (List.range n).map (fun k : Nat => today - (n : Int) + 1 + (k : Int)) := by
  intro n
  induction n with
  | zero => intro c i; rfl
  | succ m ih =>
    intro c i
    simp only [fallbackHistory, List.map_cons, ih]
    rw [List.range_succ_eq_map, List.map_cons, List.map_map]
    congr 1
    · push_cast
      ring
    · refine List.map_congr_left ?_
      intro a _
      simp only [Function.comp_apply]
      push_cast
      ring

/-- The e-commerce history loop produces exactly its iteration count of
points. -/
theorem ecommerceHistory_length (rng : Nat → ℚ) (today : Int) (b : ℚ) :
    ∀ (n : Nat) (c : ℚ) (i : Nat), (ecommerceHistory rng today b n c i).length = n := by
  intro n
  induction n with
  | zero => intro c i; rfl
  | succ m ih => intro c i; simp [ecommerceHistory, ih]

/-- The e-commerce history loop's dates are `today - n + 1 + k` in
order. -/
theorem ecommerceHistory_dates (rng : Nat → ℚ) (today : Int) (b : ℚ) :
    ∀ (n : Nat) (c : ℚ) (i : Nat),
      (ecommerceHistory rng today b n c i).map (·.date) =
        (List.range n).map (fun k : Nat => today - (n : Int) + 1 + (k : Int)) := by
  intro n
  induction n with
  | zero => intro c i; rfl
  | succ m ih =>
    intro c i
    simp only [ecommerceHistory, List.map_cons, ih]
    rw [List.range_succ_eq_map, List.map_cons, List.map_map]
    congr 1
    · push_cast
      ring
    · refine List.map_congr_left ?_
      intro a _
      simp only [Function.comp_apply]
      push_cast
      ring

/-- Every e-commerce history price is floored at 70% of the baseline
(the `Math.max(currentPrice, baseData.price * 0.7)` clamp). -/
theorem ecommerceHistory_price_floor (rng : Nat → ℚ) (today : Int) (b : ℚ) :
    ∀ (n : Nat) (c : ℚ) (i : Nat), ∀ p ∈ ecommerceHistory rng today b n c i,
      b * (7 / 10) ≤ p.price := by
  intro n
  induction n with
  | zero => intro c i p hp; cases hp
  | succ m ih =>
    intro c i p hp
    rcases List.mem_cons.mp hp with rfl | hp
    · exact le_max_right _ _
    · exact ih _ _ p hp

/-- Claim C7: every record produced by the synthetic generators — the stock
and crypto fallback paths and the e-commerce path — carries a history of
exactly 30 points whose dates strictly increase by one calendar day,
and every e-commerce history price is at least 0.7 times that product's
baseline price, for every symbol and every stream of random draws. -/
theorem fallback_history_shape (symbols : List String) (rng : String → Nat → ℚ)
    (today : Int) (now : Nat) :
    (∀ rec ∈ getFallbackStockData symbols rng today now,
      rec.history.length = 30 ∧ datesStepByOne rec.history) ∧
    (∀ rec ∈ getFallbackCryptoData symbols rng today now,
      rec.history.length = 30 ∧ datesStepByOne rec.history) ∧
    (∀ rec ∈ fetchEcommerceData symbols rng today now,
      rec.history.length = 30 ∧ datesStepByOne rec.history ∧
        ∀ p ∈ rec.history, (productBase rec.symbol).price * (7 / 10) ≤ p.price) := by
  refine ⟨?_, ?_, ?_⟩
  · intro rec hrec
    obtain ⟨s, _, rfl⟩ := List.mem_map.mp hrec
    exact ⟨fallbackHistory_length _ _ _ _ _ _ _ _,
      datesStepByOne_of_closed _ 30 (today - 30 + 1)
        (by rw [fallbackHistory_dates]; norm_num)⟩
  · intro rec hrec
    obtain ⟨s, _, rfl⟩ := List.mem_map.mp hrec
    exact ⟨fallbackHistory_length _ _ _ _ _ _ _ _,
      datesStepByOne_of_closed _ 30 (today - 30 + 1)
        (by rw [fallbackHistory_dates]; norm_num)⟩
  · intro rec hrec
    obtain ⟨s, _, rfl⟩ := List.mem_map.mp hrec
    exact ⟨ecommerceHistory_length _ _ _ _ _ _,
      datesStepByOne_of_closed _ 30 (today - 30 + 1)
        (by rw [ecommerceHistory_dates]; norm_num),
      fun p hp => ecommerceHistory_price_floor _ _ _ _ _ _ p hp⟩

/-- Witness for `fallback_history_shape`: with the constant draw stream
1/2, the first stock-fallback record for `AAPL` and the first e-commerce
record for `PS5` both carry 30-point histories. -/
theorem fallback_history_shape_witness :
    ((getFallbackStockData ["AAPL"] (fun _ _ => 1 / 2) 0 0).head (by simp [getFallbackStockData])).history.length = 30 ∧
    ((fetchEcommerceData ["PS5"] (fun _ _ => 1 / 2) 0 0).head (by simp [fetchEcommerceData])).history.length = 30 := by
  obtain ⟨hs, _, _⟩ := fallback_history_shape ["AAPL"] (fun _ _ => 1 / 2) 0 0
  obtain ⟨_, _, he⟩ := fallback_history_shape ["PS5"] (fun _ _ => 1 / 2) 0 0
  exact ⟨(hs _ (List.head_mem _)).1, (he _ (List.head_mem _)).1⟩

/-! ## Alert-id uniqueness (claim C9)

The alert id is the string `` `${symbol}-${Date.now()}` ``.  To reason
about collisions we need that the decimal rendering of the clock value
is injective and contains no dash, so that an id determines its
`(symbol, clock)` pair whenever the clock rendering is dash-free. -/

/-- A recursive presentation of the decimal digits of a natural number
(most significant first), equal to core's fuel-based
`Nat.toDigitsCore`. -/
def toDigitsRec (n : Nat) : List Char :=
  if n / 10 = 0 then [Nat.digitChar (n % 10)]
  else toDigitsRec (n / 10) ++ [Nat.digitChar (n % 10)]
termination_by n
decreasing_by omega

/-- One unfolding step of `toDigitsRec`. -/
theorem toDigitsRec_eq (n : Nat) :
    toDigitsRec n =
      if n / 10 = 0 then [Nat.digitChar (n % 10)]
      else toDigitsRec (n / 10) ++ [Nat.digitChar (n % 10)] := by
  rw [toDigitsRec]

/-- Digit lists are never empty. -/
theorem toDigitsRec_ne_nil (n : Nat) : toDigitsRec n ≠ [] := by
  rw [toDigitsRec_eq]
  split_ifs <;> simp

/-- The digit character of a residue mod 10 is never a dash. -/
theorem digitChar_mod10_ne_dash (n : Nat) : Nat.digitChar (n % 10) ≠ '-' := by
  have h10 : ∀ k : Fin 10, Nat.digitChar k ≠ '-' := by decide
  exact h10 ⟨n % 10, Nat.mod_lt _ (by norm_num)⟩

/-- The digit character is injective on residues mod 10. -/
theorem digitChar_mod10_inj {n m : Nat}
    (h : Nat.digitChar (n % 10) = Nat.digitChar (m % 10)) : n % 10 = m % 10 := by
  have h10 : ∀ a b : Fin 10, Nat.digitChar a = Nat.digitChar b → a = b := by decide
  have h2 := h10 ⟨n % 10, Nat.mod_lt _ (by norm_num)⟩ ⟨m % 10, Nat.mod_lt _ (by norm_num)⟩ h
  exact congrArg Fin.val h2

/-- Decimal digit lists contain no dash. -/
theorem toDigitsRec_no_dash (n : Nat) : '-' ∉ toDigitsRec n := by
  induction n using Nat.strong_induction_on with
  | _ n ih =>
    rw [toDigitsRec_eq]
    split_ifs with h
    · intro hmem
      rw [List.mem_singleton] at hmem
      exact digitChar_mod10_ne_dash n hmem.symm
    · intro hmem
      rcases List.mem_append.mp hmem with hm | hm
      · exact ih (n / 10) (by omega) hm
      · rw [List.mem_singleton] at hm
        exact digitChar_mod10_ne_dash n hm.symm

/-- Decimal digit lists determine the number. -/
theorem toDigitsRec_inj : ∀ n m : Nat, toDigitsRec n = toDigitsRec m → n = m := by
  intro n
  induction n using Nat.strong_induction_on with
  | _ n ih =>
    intro m h
    rw [toDigitsRec_eq n, toDigitsRec_eq m] at h
    split_ifs at h with h1 h2 h2
    · rw [List.cons.injEq] at h
      have hmod := digitChar_mod10_inj h.1
      omega
    · have hlen := congrArg List.length h
      simp at hlen
      exact absurd hlen (toDigitsRec_ne_nil (m / 10))
    · have hlen := congrArg List.length h
      simp at hlen
      exact absurd hlen (toDigitsRec_ne_nil (n / 10))
    · have hrev := congrArg List.reverse h
      simp only [List.reverse_append, List.reverse_singleton, List.singleton_append,
        List.cons.injEq] at hrev
      have hmod := digitChar_mod10_inj hrev.1
      have htail : toDigitsRec (n / 10) = toDigitsRec (m / 10) :=
        List.reverse_injective hrev.2
      have hdiv := ih (n / 10) (by omega) (m / 10) htail
      omega

/-- Core's fuel-based digit rendering agrees with `toDigitsRec` when the
fuel suffices (core always calls it with fuel `n + 1`). -/
theorem toDigitsCore_eq_rec :
    ∀ (fuel n : Nat) (ds : List Char), n < fuel →
      Nat.toDigitsCore 10 fuel n ds = toDigitsRec n ++ ds := by
  intro fuel
  induction fuel with
  | zero => intro n ds h; omega
  | succ f ih =>
    intro n ds h
    have hstep : Nat.toDigitsCore 10 (f + 1) n ds =
        if n / 10 = 0 then Nat.digitChar (n % 10) :: ds
        else Nat.toDigitsCore 10 f (n / 10) (Nat.digitChar (n % 10) :: ds) := by
      simp only [Nat.toDigitsCore]
    rw [hstep, toDigitsRec_eq n]
    split_ifs with h1
    · rfl
    · rw [ih (n / 10) (Nat.digitChar (n % 10) :: ds) (by omega), List.append_assoc]
      rfl

/-- The characters of `Nat.repr` are exactly the recursive digit list. -/
theorem repr_data_eq (n : Nat) : (Nat.repr n).data = toDigitsRec n := by
  show (Nat.toDigits 10 n).asString.data = toDigitsRec n
  rw [show Nat.toDigits 10 n = Nat.toDigitsCore 10 (n + 1) n [] from rfl,
    toDigitsCore_eq_rec (n + 1) n [] (by omega)]
  simp [List.asString]

/-- The characters of an alert id: the symbol, a dash, then the dash-free
decimal rendering of the clock. -/
theorem mkId_data (s : String) (n : Nat) :
    (mkId s n).data = s.data ++ '-' :: toDigitsRec n := by
  show (s ++ "-" ++ toString n).data = s.data ++ '-' :: toDigitsRec n
  rw [String.data_append, String.data_append,
    show (toString n).data = (Nat.repr n).data from rfl, repr_data_eq,
    show ("-" : String).data = ['-'] from rfl, List.append_assoc]
  rfl

/-- Splitting at the last dash-free tail: if two dash-free suffixes sit
behind a dash, the parts agree. -/
theorem dash_split_inj :
    ∀ (s₁ : List Char) {s₂ t₁ t₂ : List Char}, '-' ∉ t₁ → '-' ∉ t₂ →
      s₁ ++ '-' :: t₁ = s₂ ++ '-' :: t₂ → s₁ = s₂ ∧ t₁ = t₂ := by
  intro s₁
  induction s₁ with
  | nil =>
    intro s₂ t₁ t₂ h1 h2 h
    cases s₂ with
    | nil => simpa using h
    | cons c cs =>
      rw [List.nil_append, List.cons_append, List.cons.injEq] at h
      exact absurd (h.2 ▸ List.mem_append_right cs (List.mem_cons_self '-' t₂)) h1
  | cons a as ih =>
    intro s₂ t₁ t₂ h1 h2 h
    cases s₂ with
    | nil =>
      rw [List.cons_append, List.nil_append, List.cons.injEq] at h
      exact absurd (h.2 ▸ List.mem_append_right as (List.mem_cons_self '-' t₁)) h2
    | cons b bs =>
      rw [List.cons_append, List.cons_append, List.cons.injEq] at h
      obtain ⟨he1, he2⟩ := ih h1 h2 h.2
      exact ⟨by rw [h.1, he1], he2⟩

/-- An alert id determines the symbol and the clock value that built
it. -/
theorem mkId_inj {s₁ s₂ : String} {n₁ n₂ : Nat} (h : mkId s₁ n₁ = mkId s₂ n₂) :
    s₁ = s₂ ∧ n₁ = n₂ := by
  have hd := congrArg String.data h
  rw [mkId_data, mkId_data] at hd
  obtain ⟨hs, ht⟩ := dash_split_inj _ (toDigitsRec_no_dash n₁) (toDigitsRec_no_dash n₂) hd
  exact ⟨String.ext hs, toDigitsRec_inj _ _ ht⟩

/-- The id sequence of an alert feed. -/
def alertIds (f : List Alert) : List String :=
  f.map (·.id)

/-- One detector invocation preserves the id invariant: if the incoming
feed has pairwise-distinct ids all minted at clock values at most `t`,
the invocation happens at a strictly later clock `now`, and the symbols
of the records that fire are pairwise distinct, then the outgoing feed
again has pairwise-distinct ids, all minted at clock values at most
`now`. -/
theorem checkAlerts_preserves_ids (prev : List Alert) (t : Nat) (data : List MarketRecord)
    (threshold : ℚ) (now : Nat)
    (hnd : (alertIds prev).Nodup)
    (hts : ∀ a ∈ prev, ∃ s n, a.id = mkId s n ∧ n ≤ t)
    (ht : t < now)
    (hsyms : ((data.filter fun r => threshold < |r.changePercent|).map (·.symbol)).Nodup) :
    (alertIds (checkAlerts prev data threshold now)).Nodup ∧
    ∀ a ∈ checkAlerts prev data threshold now, ∃ s n, a.id = mkId s n ∧ n ≤ now := by
  have hna := newAlertsFor_eq data threshold now
  unfold checkAlerts
  by_cases hlen : (newAlertsFor data threshold now).length > 0
  · rw [if_pos hlen]
    have happ : ((prev ++ newAlertsFor data threshold now).map (fun a : Alert => a.id)).Nodup := by
      rw [List.map_append]
      apply List.Nodup.append hnd
      · rw [hna, List.map_map,
          show ((fun a : Alert => a.id) ∘ fun r => mkAlert r now) =
            ((fun s => mkId s now) ∘ fun r : MarketRecord => r.symbol) from rfl,
          ← List.map_map]
        exact List.Nodup.map (fun a b hab => (mkId_inj hab).1) hsyms
      · intro x hx hy
        obtain ⟨a, ha, rfl⟩ := List.mem_map.mp hx
        obtain ⟨s, n, hid, hn⟩ := hts a ha
        rw [hna, List.map_map] at hy
        obtain ⟨r, _, hid2⟩ := List.mem_map.mp hy
        have hid3 : mkId r.symbol now = mkId s n := by
          rw [← hid]
          exact hid2
        have hnow := (mkId_inj hid3).2
        omega
    constructor
    · show ((List.drop ((prev ++ newAlertsFor data threshold now).length - 10)
        (prev ++ newAlertsFor data threshold now)).map (fun a : Alert => a.id)).Nodup
      exact ((List.drop_sublist _ _).map (fun a : Alert => a.id)).nodup happ
    · intro a ha
      have ha2 : a ∈ prev ++ newAlertsFor data threshold now := List.mem_of_mem_drop ha
      rcases List.mem_append.mp ha2 with hm | hm
      · obtain ⟨s, n, hid, hn⟩ := hts a hm
        exact ⟨s, n, hid, by omega⟩
      · rw [hna] at hm
        obtain ⟨r, _, rfl⟩ := List.mem_map.mp hm
        exact ⟨r.symbol, now, rfl, le_refl _⟩
  · rw [if_neg hlen]
    refine ⟨hnd, fun a ha => ?_⟩
    obtain ⟨s, n, hid, hn⟩ := hts a ha
    exact ⟨s, n, hid, by omega⟩

/-- The alert feeds reachable by the application: the feed starts empty,
and each refresh cycle runs the detector once.  The side conditions
record the clock advancing strictly between invocations and the firing
records of each single batch carrying pairwise-distinct symbols. -/
inductive ReachableFeed : List Alert → Nat → Prop where
  | nil : ReachableFeed [] 0
  | step (prev : List Alert) (t : Nat) (data : List MarketRecord) (threshold : ℚ) (now : Nat) :
      ReachableFeed prev t → t < now →
      ((data.filter fun r => threshold < |r.changePercent|).map (·.symbol)).Nodup →
      ReachableFeed (checkAlerts prev data threshold now) now

/-- Claim C9, amended: every reachable alert feed has pairwise-distinct
ids, provided the records firing within each single invocation have
pairwise-distinct symbols and the clock strictly advances between
invocations — without those provisos two alerts can share an id (see
the counterexample). -/
theorem alert_ids_nodup (f : List Alert) (t : Nat) (h : ReachableFeed f t) :
    (alertIds f).Nodup := by
  suffices hinv : (alertIds f).Nodup ∧ ∀ a ∈ f, ∃ s n, a.id = mkId s n ∧ n ≤ t by
    exact hinv.1
  induction h with
  | nil => exact ⟨List.nodup_nil, by simp⟩
  | step prev t data threshold now hr hlt hnd ih =>
    exact checkAlerts_preserves_ids prev t data threshold now ih.1 ih.2 hlt hnd

/-- A concrete +20% record for `BTC`. -/
def recBTC20 : MarketRecord :=
  { symbol := "BTC", name := "Bitcoin", price := 67500, change := 13500, changePercent := 20,
    volume := 0, high24h := 0, low24h := 0 }

/-- Witness for `alert_ids_nodup`: the feed obtained from the empty feed
by one invocation at clock 5 on the single-record batch `[recBTC20]`
with threshold 8 has pairwise-distinct ids. -/
theorem alert_ids_nodup_witness :
    (alertIds (checkAlerts [] [recBTC20] 8 5)).Nodup :=
  alert_ids_nodup (checkAlerts [] [recBTC20] 8 5) 5
    (ReachableFeed.step [] 0 [recBTC20] 8 5 ReachableFeed.nil (by omega) (by decide))

/-- Claim C9, counterexample to the claim as stated: a batch can hold two
records with the same symbol (the tracked-symbol list is free-form user
input), and both fire in the same invocation, i.e. at the same
`Date.now()` tick — the resulting feed carries the id `BTC-1000`
twice. -/
theorem alert_ids_counterexample :
    ¬ (alertIds (checkAlerts [] [recBTC20, recBTC20] 8 1000)).Nodup := by
  decide
